import Mathlib

/-!
Shallow embedding of `coverme.py` (the `coverme` backup tool).

Strings are modelled as `List Char`; Python exceptions as the inductive
`PyExc`; fallible Python code as `Except PyExc _`.  External effects
(the `pg_dump` subprocess, the filesystem, the cloud SDK) are modelled
by passing their outcomes in explicitly and by recording the calls the
orchestrator makes as an event trace.
-/

set_option autoImplicit false

deriving instance DecidableEq for Except

namespace Coverme

/-- The Python values returned by the `copy_data` methods: `None`,
`True` or `False` (`PostgresqlBackupSource.copy_data` returns
`result == 0`; the MySQL and directory stubs fall off the end of the
function body and return `None`). -/
inductive PyVal where
  | noneVal : PyVal
  | boolVal : Bool → PyVal
deriving DecidableEq

/-- Python truthiness for the values of `PyVal` (`if not_empty:`). -/
def pyTruthy : PyVal → Bool
  | PyVal.noneVal => false
  | PyVal.boolVal b => b

/-- The Python exceptions the embedded code can raise: `KeyError` from
`c['url']`-style item access, `UnboundLocalError`/`NameError` from
reading an unassigned local, `ValueError` from the explicit `raise`
statements (with their formatted message), and `OSError`/`IOError`
for filesystem failures. -/
inductive PyExc where
  | keyError : List Char → PyExc
  | nameError : List Char → PyExc
  | valueError : List Char → PyExc
  | osError : PyExc
deriving DecidableEq

/-- Lower-case a string, character by character (`str.lower`). -/
def toLowerList (l : List Char) : List Char := l.map Char.toLower

/-- Split a list at the first occurrence of `c`; `none` when `c` does
not occur.  Mirrors `str.partition` without returning the separator. -/
def splitFirst (c : Char) : List Char → Option (List Char × List Char)
  | [] => Option.none
  | a :: rest =>
    if a = c then some ([], rest)
    else
      match splitFirst c rest with
      | some (pre, post) => some (a :: pre, post)
      | Option.none => Option.none

/-- The suffix after the last occurrence of `c` (the whole list when
`c` does not occur).  Mirrors `str.rpartition(c)[2]`. -/
def afterLast (c : Char) (l : List Char) : List Char :=
  (l.reverse.takeWhile (fun a => a != c)).reverse

/-- The components of `urlparse` that `coverme.py` uses: `scheme`,
`netloc` and `path`. -/
structure Url where
  scheme : List Char
  netloc : List Char
  path : List Char
deriving DecidableEq

/-- Model of `urllib.parse.urlparse` for `scheme://netloc/path`-shaped
URLs: the scheme is the (lower-cased) part before the first `:`; when
the rest starts with `//` the netloc runs to the next `/` and the path
is the remainder; query and fragment components are not modelled. -/
def urlparse (u : List Char) : Url :=
  let p :=
    match splitFirst ':' u with
    | some (s, r) => (toLowerList s, r)
    | Option.none => (([] : List Char), u)
  let scheme := p.1
  let rest := p.2
  if rest.take 2 = ['/', '/'] then
    let after := rest.drop 2
    Url.mk scheme (after.takeWhile (fun a => a != '/')) (after.dropWhile (fun a => a != '/'))
  else
    Url.mk scheme [] rest

/-- `ParseResult.hostname`: the part of the netloc after the last `@`
and before the first `:`, lower-cased; `None` when empty. -/
def Url.hostname (url : Url) : Option (List Char) :=
  let hostinfo := afterLast '@' url.netloc
  let host := hostinfo.takeWhile (fun a => a != ':')
  if host = [] then Option.none else some (toLowerList host)

/-- Python `str.strip('/')`: drop leading and trailing `/` characters. -/
def stripSlashes (l : List Char) : List Char :=
  ((l.dropWhile (fun a => a = '/')).reverse.dropWhile (fun a => a = '/')).reverse

/-- `str(x)` applied to an optional hostname (`str(None) = "None"`). -/
def strOfHostname : Option (List Char) → List Char
  | Option.none => "None".toList
  | some h => h

/-- One entry of the `backups` configuration list, restricted to the
keys `coverme.py` reads (`c.get('type')`, `c['url']`,
`self.settings['path']`). -/
structure SourceConfig where
  type : Option (List Char)
  url : Option (List Char)
  path : Option (List Char)
deriving DecidableEq

/-- A constructed `PostgresqlBackupSource`: its settings, the parsed
connection URL and the database name stripped from the URL path. -/
structure PgSource where
  cfg : SourceConfig
  url : Url
  db : List Char
deriving DecidableEq

/-- A constructed `MySQLBackupSource`: the base-class `__init__` just
stores the settings, nothing is parsed or validated. -/
structure MySqlSource where
  cfg : SourceConfig
deriving DecidableEq

/-- A constructed `DirBackupSource`: the base-class `__init__` just
stores the settings. -/
structure DirSource where
  cfg : SourceConfig
deriving DecidableEq

/-- `PostgresqlBackupSource.__init__`: parse `settings['url']`, strip
`/` from its path to get the database name, and raise `ValueError`
when that name is empty. -/
def PostgresqlBackupSource.init (c : SourceConfig) : Except PyExc PgSource :=
  match c.url with
  | Option.none => Except.error (PyExc.keyError "url".toList)
  | some u =>
    let url := urlparse u
    let db := stripSlashes url.path
    if db = [] then
      Except.error (PyExc.valueError ("Database is not defined ".toList ++ u))
    else
      Except.ok (PgSource.mk c url db)

/-- `MySQLBackupSource` construction: only the inherited
`BackupSource.__init__` runs, which stores the settings and never
fails. -/
def MySQLBackupSource.init (c : SourceConfig) : Except PyExc MySqlSource :=
  Except.ok (MySqlSource.mk c)

/-- `PostgresqlBackupSource.__str__`:
`'%s://%s%s' % (self.url.scheme, self.url.hostname, self.url.path)`. -/
def PgSource.describe (s : PgSource) : List Char :=
  s.url.scheme ++ "://".toList ++ strOfHostname s.url.hostname ++ s.url.path

/-- `MySQLBackupSource.copy_data`: the body is `pass`, so the call
returns `None` whatever the arguments are. -/
def MySQLBackupSource.copy_data (_s : MySqlSource) (_tempDir : List Char) : PyVal :=
  PyVal.noneVal

/-- `DirBackupSource.copy_data`: the body is `pass`, so the call
returns `None` whatever the arguments are; no files are copied. -/
def DirBackupSource.copy_data (_s : DirSource) (_tempDir : List Char) : PyVal :=
  PyVal.noneVal

/-- The closed set of source variants `Backup._new_sources` can build. -/
inductive Source where
  | postgres : PgSource → Source
  | mysql : MySqlSource → Source
  | dir : DirSource → Source
deriving DecidableEq

/-- `Backup._new_sources`, with the Python local variable `source`
threaded through explicitly as `prev` (it starts unassigned =
`Option.none`).  When an entry's `type` is neither `database` nor
`dir`, no branch assigns `source`, and `sources.append(source)` either
raises `UnboundLocalError` (first iteration) or appends the value left
over from the previous iteration. -/
def new_sources_go : List SourceConfig → Option Source → Except PyExc (List Source)
  | [], _ => Except.ok []
  | c :: rest, prev =>
    match c.type with
    | some t =>
      if t = "database".toList then
        match c.url with
        | Option.none => Except.error (PyExc.keyError "url".toList)
        | some u =>
          let url := urlparse u
          if url.scheme = "postgres".toList then
            match PostgresqlBackupSource.init c with
            | Except.error e => Except.error e
            | Except.ok pg =>
              match new_sources_go rest (some (Source.postgres pg)) with
              | Except.error e => Except.error e
              | Except.ok tl => Except.ok (Source.postgres pg :: tl)
          else if url.scheme = "mysql".toList then
            match MySQLBackupSource.init c with
            | Except.error e => Except.error e
            | Except.ok ms =>
              match new_sources_go rest (some (Source.mysql ms)) with
              | Except.error e => Except.error e
              | Except.ok tl => Except.ok (Source.mysql ms :: tl)
          else
            Except.error (PyExc.valueError
              ("Unknown database source scheme `".toList ++ url.scheme ++ "`".toList))
      else if t = "dir".toList then
        match new_sources_go rest (some (Source.dir (DirSource.mk c))) with
        | Except.error e => Except.error e
        | Except.ok tl => Except.ok (Source.dir (DirSource.mk c) :: tl)
      else
        match prev with
        | Option.none => Except.error (PyExc.nameError "source".toList)
        | some s =>
          match new_sources_go rest (some s) with
          | Except.error e => Except.error e
          | Except.ok tl => Except.ok (s :: tl)
    | Option.none =>
      match prev with
      | Option.none => Except.error (PyExc.nameError "source".toList)
      | some s =>
        match new_sources_go rest (some s) with
        | Except.error e => Except.error e
        | Except.ok tl => Except.ok (s :: tl)

/-- `Backup._new_sources` on the configured `backups` list. -/
def new_sources (cs : List SourceConfig) : Except PyExc (List Source) :=
  new_sources_go cs Option.none

/-- One vault configuration entry, restricted to the key the dispatch
logic reads (`v.get('service')`).  The remaining settings (region,
credentials, names) are only handed to the external cloud SDK. -/
structure VaultConfig where
  service : Option (List Char)
deriving DecidableEq

/-- The closed set of vault variants `Backup._new_vaults` can build
(`GlacierVault` and `S3Bucket`); the external SDK client each one
holds is opaque here. -/
inductive Vault where
  | glacier : VaultConfig → Vault
  | s3 : VaultConfig → Vault
deriving DecidableEq

/-- `Backup._new_vaults`: dispatch on `v.get('service')`; an unknown
truthy value raises `ValueError("Unknown vault service ...")`, a
missing (or falsy) value raises
`ValueError("Key service is missing for vault ...")`. -/
def new_vaults_go : List (List Char × VaultConfig) → Except PyExc (List (List Char × Vault))
  | [] => Except.ok []
  | (k, v) :: rest =>
    match v.service with
    | some s =>
      if s = "glacier".toList then
        match new_vaults_go rest with
        | Except.error e => Except.error e
        | Except.ok tl => Except.ok ((k, Vault.glacier v) :: tl)
      else if s = "s3".toList then
        match new_vaults_go rest with
        | Except.error e => Except.error e
        | Except.ok tl => Except.ok ((k, Vault.s3 v) :: tl)
      else if s ≠ [] then
        Except.error (PyExc.valueError ("Unknown vault service `".toList ++ s ++ "`".toList))
      else
        Except.error (PyExc.valueError
          ("Key `service` is missing for vault `".toList ++ k ++ "`".toList))
    | Option.none =>
      Except.error (PyExc.valueError
        ("Key `service` is missing for vault `".toList ++ k ++ "`".toList))

/-- `Backup._new_vaults` on the configured `vaults` mapping (modelled
as an association list in insertion order). -/
def new_vaults (vs : List (List Char × VaultConfig)) : Except PyExc (List (List Char × Vault)) :=
  new_vaults_go vs

/-- The parsed configuration document, restricted to the sections the
embedded code reads.  `Option.none` models a missing section, `some l`
a present one (possibly empty). -/
structure Settings where
  backups : Option (List SourceConfig)
  vaults : Option (List (List Char × VaultConfig))
deriving DecidableEq

/-- Python falsiness of `settings.get(key)` for a list/dict-valued
section: missing or empty is falsy. -/
def sectionFalsy {α : Type} : Option (List α) → Bool
  | Option.none => true
  | some l => l.isEmpty

/-- A value stored in the error dict returned by `create_with_config`:
either a plain string or a caught exception object. -/
inductive ErrVal where
  | str : List Char → ErrVal
  | exc : PyExc → ErrVal
deriving DecidableEq

/-- `Backup.validate`: collect a human-readable error for each of the
`backups` and `vaults` sections that is missing or empty. -/
def validate (st : Settings) : List (List Char × ErrVal) :=
  (if sectionFalsy st.backups then
      [("backups".toList, ErrVal.str "Section `backups` is empty".toList)]
    else [])
    ++
  (if sectionFalsy st.vaults then
      [("vaults".toList, ErrVal.str "Section `vaults` is empty".toList)]
    else [])

/-- A constructed `Backup` instance: its source list and vault map
(`defaults` is only consulted later, for the temp dir and archive
format, and is not needed by the constructor logic modelled here). -/
structure Backup where
  sources : List Source
  vaults : List (List Char × Vault)
deriving DecidableEq

/-- `Backup.__init__`: `settings['backups']` (a `KeyError` when
absent), then `_new_sources`, then `settings['vaults']`, then
`_new_vaults`; any exception propagates. -/
def Backup.init (st : Settings) : Except PyExc Backup :=
  match st.backups with
  | Option.none => Except.error (PyExc.keyError "backups".toList)
  | some bs =>
    match new_sources bs with
    | Except.error e => Except.error e
    | Except.ok srcs =>
      match st.vaults with
      | Option.none => Except.error (PyExc.keyError "vaults".toList)
      | some vs =>
        match new_vaults vs with
        | Except.error e => Except.error e
        | Except.ok vlts => Except.ok (Backup.mk srcs vlts)

/-- `Backup.create_with_config`.  Reading and parsing the file is
external; `loadResult` is its outcome (`Except.error ()` models an
`IOError` from `open`).  On an `IOError` the dict
`{'path': path, '': "No config file found"}` is returned with no
instance; otherwise `validate` runs first, and only when it reports no
errors is the constructor attempted, with any exception caught and
stored under the empty key. -/
def create_with_config (path : List Char) (loadResult : Except Unit Settings) :
    Option Backup × Option (List (List Char × ErrVal)) :=
  match loadResult with
  | Except.error _ =>
    (Option.none, some [("path".toList, ErrVal.str path),
                        ([], ErrVal.str "No config file found".toList)])
  | Except.ok st =>
    let errors := validate st
    if errors = [] then
      match Backup.init st with
      | Except.ok b => (some b, Option.none)
      | Except.error e =>
        (Option.none, some [([], ErrVal.exc e), ("path".toList, ErrVal.str path)])
    else
      (Option.none, some (errors ++ [("path".toList, ErrVal.str path)]))

/-- The outcome of one `source.copy_data(temp_dir)` call as seen by
`Backup.archive`: either a normal return value or a raised
exception.  The call itself shells out to external tools, so its
outcome is an input of the model. -/
structure SourceBeh where
  copyOutcome : Except PyExc PyVal
deriving DecidableEq

/-- The observable calls `Backup.run`/`Backup.archive` make, tagged
with the position of the source being processed: the `copy_data`
call, the `_make_archive` call, the `shutil.rmtree` cleanup, and each
`vault.upload` call (tagged also with the vault's position). -/
inductive Event where
  | copyData : Nat → Event
  | archived : Nat → Event
  | removedTemp : Nat → Event
  | uploadAttempt : Nat → Nat → Event
deriving DecidableEq

/-- `shutil.make_archive(dir_name, ...)`: returns the base name plus
the format's extension. -/
def mkArchivePath (dir fmt : List Char) : List Char := dir ++ '.' :: fmt

/-- `shutil.rmtree(dir, ignore_errors=...)` on a directory that either
exists or not: raises `OSError` on a missing directory unless
`ignore_errors` is set; afterwards the directory does not exist. -/
def rmtree (dirExists : Bool) (ignoreErrors : Bool) : Except PyExc Bool :=
  if dirExists = false ∧ ignoreErrors = false then Except.error PyExc.osError
  else Except.ok false

/-- `Backup.archive` for the source at position `i` whose staging
directory is `tmp`: run `copy_data` (outcome `b.copyOutcome`); on a
truthy result call `_make_archive`, on a falsy one skip it; then run
`shutil.rmtree(temp_dir, ignore_errors=True)` (the `rmtree` model with
`ignoreErrors = true`) and return the archive path.  The result is
(returned value or propagated exception, the event trace, whether the
staging directory was removed).  There is no `try`/`finally`, so a
raised exception leaves the function before the `rmtree` line. -/
def archive (i : Nat) (tmp fmt : List Char) (b : SourceBeh) :
    Except PyExc (Option (List Char)) × List Event × Bool :=
  match b.copyOutcome with
  | Except.error e => (Except.error e, [Event.copyData i], false)
  | Except.ok v =>
    if pyTruthy v then
      (Except.ok (some (mkArchivePath tmp fmt)),
       [Event.copyData i, Event.archived i, Event.removedTemp i], true)
    else
      (Except.ok Option.none, [Event.copyData i, Event.removedTemp i], true)

/-- Python truthiness of the archive path `Backup.run` branches on:
`None` and the empty string are falsy. -/
def pyTruthyPath : Option (List Char) → Bool
  | Option.none => false
  | some p => !p.isEmpty

/-- The loop body of `Backup.run`, starting at source position `i`:
call `archive`; on an exception propagate it (aborting the loop); on a
truthy archive path upload it to every configured vault in order
(`vc` vaults). -/
def run_go (vc : Nat) (tmps : Nat → List Char) (fmt : List Char) :
    List SourceBeh → Nat → Except PyExc Unit × List Event
  | [], _ => (Except.ok (), [])
  | b :: rest, i =>
    match archive i (tmps i) fmt b with
    | (Except.error e, evs, _) => (Except.error e, evs)
    | (Except.ok p, evs, _) =>
      let ups := if pyTruthyPath p then (List.range vc).map (fun j => Event.uploadAttempt i j)
                 else []
      let r := run_go vc tmps fmt rest (i + 1)
      (r.1, evs ++ (ups ++ r.2))

/-- `Backup.run`: process every source in declaration order; `vc` is
the number of configured vaults, `tmps i` the staging directory
`tempfile.mkdtemp` hands out for the `i`-th source, `fmt` the archive
format, and `behs` the `copy_data` outcome of each source in order. -/
def run (vc : Nat) (tmps : Nat → List Char) (fmt : List Char) (behs : List SourceBeh) :
    Except PyExc Unit × List Event :=
  run_go vc tmps fmt behs 0

/-- The source position an event belongs to. -/
def eventIdx : Event → Nat
  | Event.copyData i => i
  | Event.archived i => i
  | Event.removedTemp i => i
  | Event.uploadAttempt i _ => i

/-- Whether an event is an upload attempt. -/
def isUpload : Event → Bool
  | Event.uploadAttempt _ _ => true
  | _ => false

/-- Whether an event is an upload attempt for the source at position `i`. -/
def isUploadFor (i : Nat) : Event → Bool
  | Event.uploadAttempt k _ => k == i
  | _ => false

/-- Whether an event is an archive creation for the source at position `i`. -/
def isArchivedFor (i : Nat) : Event → Bool
  | Event.archived k => k == i
  | _ => false

/-- The source positions of the `copy_data` calls in a trace, in order. -/
def copyIndices (evs : List Event) : List Nat :=
  evs.filterMap (fun e => match e with | Event.copyData i => some i | _ => Option.none)

/-- Number of upload attempts in a trace. -/
def uploadCount (evs : List Event) : Nat := evs.countP isUpload

/-- Number of upload attempts for the source at position `i`. -/
def uploadCountFor (i : Nat) (evs : List Event) : Nat := evs.countP (isUploadFor i)

/-- Number of archive creations for the source at position `i`. -/
def archivedCountFor (i : Nat) (evs : List Event) : Nat := evs.countP (isArchivedFor i)

/-- Whether a source's `copy_data` outcome is a truthy normal return
("the extraction reported non-empty"). -/
def truthyOutcome (b : SourceBeh) : Bool :=
  match b.copyOutcome with
  | Except.ok v => pyTruthy v
  | Except.error _ => false

/-- A two-source behaviour list used for concrete evaluations: the
first source reports non-empty, the second returns `None`. -/
def demoBehs : List SourceBeh :=
  [SourceBeh.mk (Except.ok (PyVal.boolVal true)), SourceBeh.mk (Except.ok PyVal.noneVal)]

/-- The source configuration `{type: "database", url: "postgres://u@h:5432/mydb"}`. -/
def pgExampleCfg : SourceConfig :=
  SourceConfig.mk (some "database".toList) (some "postgres://u@h:5432/mydb".toList) Option.none

/-- The `PostgresqlBackupSource` built from `pgExampleCfg`. -/
def pgExampleSource : PgSource :=
  PgSource.mk pgExampleCfg (urlparse "postgres://u@h:5432/mydb".toList)
    (stripSlashes (urlparse "postgres://u@h:5432/mydb".toList).path)

/-- C3 (amended): when `copy_data` returns normally — packaging
happened (truthy result) or the source was empty (falsy result) — the
staging directory is removed by `archive`, and the removal
(`shutil.rmtree` with `ignore_errors=True`) tolerates an
already-missing directory without error. -/
theorem cleanup_on_normal_paths (i : Nat) (tmp fmt : List Char) (b : SourceBeh) (v : PyVal)
    (h : b.copyOutcome = Except.ok v) :
    (archive i tmp fmt b).2.2 = true ∧ rmtree false true = Except.ok false := by
  refine ⟨?_, rfl⟩
  rcases hv : pyTruthy v <;> simp [archive, h, hv]

/-- Witness for `cleanup_on_normal_paths` at a concrete empty source. -/
theorem cleanup_on_normal_paths_witness :
    (archive 0 "t".toList "zip".toList (SourceBeh.mk (Except.ok PyVal.noneVal))).2.2 = true ∧
    rmtree false true = Except.ok false :=
  cleanup_on_normal_paths 0 "t".toList "zip".toList
    (SourceBeh.mk (Except.ok PyVal.noneVal)) PyVal.noneVal rfl

/-- C3 (counterexample): when `copy_data` raises, `Backup.archive` has
no `try`/`finally`, so the exception propagates and the staging
directory is not removed — the claimed cleanup on every exit path
fails on the error path. -/
theorem archive_skips_cleanup_on_exception :
    (archive 0 "t".toList "zip".toList (SourceBeh.mk (Except.error PyExc.osError))).1 =
      Except.error PyExc.osError ∧
    (archive 0 "t".toList "zip".toList (SourceBeh.mk (Except.error PyExc.osError))).2.2 =
      false := by
  decide

/-- C4: `create_with_config` returns either an instance and no errors
or no instance and a non-empty error set, never both; a settings
document with a falsy `backups` or `vaults` section is rejected with
exactly the `validate` errors plus the path, without running the
constructor; and an exception `e` raised inside the constructor is
caught and returned as the error dict entry keyed by the empty
string. -/
theorem create_with_config_instance_xor_errors (path : List Char)
    (loadResult : Except Unit Settings) :
    (((create_with_config path loadResult).1 = Option.none ∧
        ∃ errs, (create_with_config path loadResult).2 = some errs ∧ errs ≠ []) ∨
      ((∃ b, (create_with_config path loadResult).1 = some b) ∧
        (create_with_config path loadResult).2 = Option.none)) ∧
    (∀ st, loadResult = Except.ok st → validate st ≠ [] →
      create_with_config path loadResult =
        (Option.none, some (validate st ++ [("path".toList, ErrVal.str path)]))) ∧
    (∀ st e, loadResult = Except.ok st → validate st = [] → Backup.init st = Except.error e →
      create_with_config path loadResult =
        (Option.none, some [([], ErrVal.exc e), ("path".toList, ErrVal.str path)])) := by
  cases loadResult with
  | error u =>
    refine ⟨Or.inl ⟨rfl, ⟨_, rfl, by simp⟩⟩, ?_, ?_⟩
    · intro st h
      exact absurd h (by simp)
    · intro st e h
      exact absurd h (by simp)
  | ok st =>
    by_cases hv : validate st = []
    · cases hb : Backup.init st with
      | ok b =>
        refine ⟨Or.inr ⟨⟨b, ?_⟩, ?_⟩, ?_, ?_⟩
        · simp [create_with_config, hv, hb]
        · simp [create_with_config, hv, hb]
        · intro st2 h2 hne
          injection h2 with h2
          subst h2
          exact absurd hv hne
        · intro st2 e h2 _ hbe
          injection h2 with h2
          subst h2
          rw [hb] at hbe
          exact absurd hbe (by simp)
      | error e =>
        refine ⟨Or.inl ⟨?_,
            ⟨[([], ErrVal.exc e), ("path".toList, ErrVal.str path)], ?_, by simp⟩⟩, ?_, ?_⟩
        · simp [create_with_config, hv, hb]
        · simp [create_with_config, hv, hb]
        · intro st2 h2 hne
          injection h2 with h2
          subst h2
          exact absurd hv hne
        · intro st2 e2 h2 _ hbe
          injection h2 with h2
          subst h2
          rw [hb] at hbe
          injection hbe with hbe
          subst hbe
          simp [create_with_config, hv, hb]
    · refine ⟨Or.inl ⟨?_,
          ⟨validate st ++ [("path".toList, ErrVal.str path)], ?_, ?_⟩⟩, ?_, ?_⟩
      · simp [create_with_config, hv]
      · simp [create_with_config, hv]
      · simp
      · intro st2 h2 _
        injection h2 with h2
        subst h2
        simp [create_with_config, hv]
      · intro st2 e h2 hve
        injection h2 with h2
        subst h2
        exact absurd hve hv

/-- Witness for `create_with_config_instance_xor_errors` on a document
with both sections missing. -/
theorem create_with_config_instance_xor_errors_witness :
    create_with_config "backup.yml".toList
        (Except.ok (Settings.mk Option.none Option.none)) =
      (Option.none, some (validate (Settings.mk Option.none Option.none) ++
        [("path".toList, ErrVal.str "backup.yml".toList)])) :=
  (create_with_config_instance_xor_errors "backup.yml".toList
      (Except.ok (Settings.mk Option.none Option.none))).2.1
    (Settings.mk Option.none Option.none) rfl (by decide)

/-- C5 (code evaluation): a source entry whose `type` is neither
`database` nor `dir` does not raise an unsupported-source-type error —
after a valid entry, the previously built source is appended a second
time and construction succeeds; when the bad entry comes first, the
unassigned local `source` raises `UnboundLocalError` instead. -/
theorem unknown_source_type_appends_previous_source :
    new_sources
        [SourceConfig.mk (some "dir".toList) Option.none (some "/data".toList),
         SourceConfig.mk (some "ftp".toList) Option.none Option.none] =
      Except.ok
        [Source.dir (DirSource.mk
          (SourceConfig.mk (some "dir".toList) Option.none (some "/data".toList))),
         Source.dir (DirSource.mk
          (SourceConfig.mk (some "dir".toList) Option.none (some "/data".toList)))] ∧
    new_sources [SourceConfig.mk (some "ftp".toList) Option.none Option.none] =
      Except.error (PyExc.nameError "source".toList) := by
  decide

/-- C6 (counterexample): a MySQL database source whose URL has an
empty database name is constructed successfully — only the inherited
`__init__` runs, which performs no validation. -/
theorem mysql_source_constructs_with_empty_db :
    new_sources
        [SourceConfig.mk (some "database".toList) (some "mysql://h/".toList) Option.none] =
      Except.ok [Source.mysql (MySqlSource.mk
        (SourceConfig.mk (some "database".toList) (some "mysql://h/".toList) Option.none))] ∧
    stripSlashes (urlparse "mysql://h/".toList).path = [] := by
  decide

/-- C6 (amended): `PostgresqlBackupSource` construction fails exactly
when the database name stripped from the URL path is empty, while
`MySQLBackupSource` construction performs no database-name validation
and always succeeds. -/
theorem db_name_validation_postgres_only (t pth : Option (List Char)) (u : List Char) :
    ((∃ e, PostgresqlBackupSource.init (SourceConfig.mk t (some u) pth) = Except.error e) ↔
      stripSlashes (urlparse u).path = []) ∧
    MySQLBackupSource.init (SourceConfig.mk t (some u) pth) =
      Except.ok (MySqlSource.mk (SourceConfig.mk t (some u) pth)) := by
  refine ⟨⟨?_, ?_⟩, rfl⟩
  · intro he
    obtain ⟨e, he⟩ := he
    by_contra hne
    simp [PostgresqlBackupSource.init, hne] at he
  · intro hnil
    exact ⟨PyExc.valueError ("Database is not defined ".toList ++ u),
      by simp [PostgresqlBackupSource.init, hnil]⟩

/-- Witness for `db_name_validation_postgres_only` at a URL with an
empty database name. -/
theorem db_name_validation_postgres_only_witness :
    ((∃ e, PostgresqlBackupSource.init
        (SourceConfig.mk Option.none (some "postgres://h/".toList) Option.none) =
          Except.error e) ↔
      stripSlashes (urlparse "postgres://h/".toList).path = []) ∧
    MySQLBackupSource.init
        (SourceConfig.mk Option.none (some "postgres://h/".toList) Option.none) =
      Except.ok (MySqlSource.mk
        (SourceConfig.mk Option.none (some "postgres://h/".toList) Option.none)) :=
  db_name_validation_postgres_only Option.none Option.none "postgres://h/".toList

/-- C7 (code evaluation): `DirBackupSource.copy_data` is a `pass`
stub: it returns `None` — a falsy value — for every directory source
and staging directory, so no directory source ever reports a
non-empty extraction. -/
theorem dir_copy_data_always_none (s : DirSource) (tempDir : List Char) :
    DirBackupSource.copy_data s tempDir = PyVal.noneVal ∧
    pyTruthy (DirBackupSource.copy_data s tempDir) = false :=
  ⟨rfl, rfl⟩

/-- C8: `{type: "database", url: "postgres://u@h:5432/mydb"}` builds a
Postgres-variant source whose string form is `postgres://h/mydb`
(host without port, path with the database name), while a database
entry with scheme `oracle` fails construction with the
unknown-scheme `ValueError`. -/
theorem source_scheme_routing :
    new_sources [pgExampleCfg] = Except.ok [Source.postgres pgExampleSource] ∧
    PgSource.describe pgExampleSource = "postgres://h/mydb".toList ∧
    new_sources
        [SourceConfig.mk (some "database".toList) (some "oracle://h/db".toList) Option.none] =
      Except.error (PyExc.valueError "Unknown database source scheme `oracle`".toList) := by
  decide

/-- C9: `service: glacier` builds a `GlacierVault`, `service: s3`
builds an `S3Bucket` (distinct variants); any other service value
fails with the unknown-service `ValueError`, a missing `service` key
fails with the missing-key `ValueError`, and the two error values are
distinct. -/
theorem vault_service_routing (k : List Char) :
    new_vaults [(k, VaultConfig.mk (some "glacier".toList))] =
      Except.ok [(k, Vault.glacier (VaultConfig.mk (some "glacier".toList)))] ∧
    new_vaults [(k, VaultConfig.mk (some "s3".toList))] =
      Except.ok [(k, Vault.s3 (VaultConfig.mk (some "s3".toList)))] ∧
    (∀ c c2, Vault.glacier c ≠ Vault.s3 c2) ∧
    new_vaults [(k, VaultConfig.mk (some "ftp".toList))] =
      Except.error (PyExc.valueError "Unknown vault service `ftp`".toList) ∧
    new_vaults [(k, VaultConfig.mk Option.none)] =
      Except.error (PyExc.valueError
        ("Key `service` is missing for vault `".toList ++ k ++ "`".toList)) ∧
    PyExc.valueError "Unknown vault service `ftp`".toList ≠
      PyExc.valueError ("Key `service` is missing for vault `".toList ++ k ++ "`".toList) := by
  refine ⟨rfl, rfl, fun c c2 h => Vault.noConfusion h, rfl, rfl, ?_⟩
  intro h
  injection h with hm
  have h2 : ("Key `service` is missing for vault `".toList ++ k ++ "`".toList).head? =
      some 'K' := rfl
  rw [← hm] at h2
  exact absurd h2 (by decide)

/-- Witness for `vault_service_routing` at a concrete vault name. -/
theorem vault_service_routing_witness :
    new_vaults [("myvault".toList, VaultConfig.mk (some "glacier".toList))] =
      Except.ok [("myvault".toList, Vault.glacier (VaultConfig.mk (some "glacier".toList)))] :=
  (vault_service_routing "myvault".toList).1

/-- C10: when opening the configuration file raises `IOError`,
`create_with_config` returns no instance together with the error dict
holding the configured path and the message `No config file found`. -/
theorem config_ioerror_reported (path : List Char) :
    create_with_config path (Except.error ()) =
      (Option.none, some [("path".toList, ErrVal.str path),
                          ([], ErrVal.str "No config file found".toList)]) := rfl

/-- Unfolding of `archive` when `copy_data` returns normally. -/
theorem archive_copy_ok (i : Nat) (tmp fmt : List Char) (b : SourceBeh) (v : PyVal)
    (h : b.copyOutcome = Except.ok v) :
    archive i tmp fmt b =
      (Except.ok (if pyTruthy v then some (mkArchivePath tmp fmt) else Option.none),
       (if pyTruthy v then [Event.copyData i, Event.archived i, Event.removedTemp i]
        else [Event.copyData i, Event.removedTemp i]),
       true) := by
  rcases hv : pyTruthy v <;> simp [archive, h, hv]

/-- Unfolding of `archive` when `copy_data` raises. -/
theorem archive_copy_error (i : Nat) (tmp fmt : List Char) (b : SourceBeh) (e : PyExc)
    (h : b.copyOutcome = Except.error e) :
    archive i tmp fmt b = (Except.error e, [Event.copyData i], false) := by
  simp [archive, h]

/-- The archive path returned by `_make_archive` is never the empty
string. -/
theorem mkArchivePath_not_empty (tmp fmt : List Char) :
    (mkArchivePath tmp fmt).isEmpty = false := by
  cases tmp <;> rfl

/-- Unfolding of the `run` loop at a source whose `copy_data` raises:
the exception propagates and the loop stops. -/
theorem run_go_cons_error (vc : Nat) (tmps : Nat → List Char) (fmt : List Char)
    (b : SourceBeh) (rest : List SourceBeh) (i : Nat) (e : PyExc)
    (h : b.copyOutcome = Except.error e) :
    run_go vc tmps fmt (b :: rest) i = (Except.error e, [Event.copyData i]) := by
  simp [run_go, archive_copy_error i (tmps i) fmt b e h]

/-- Unfolding of the `run` loop at a source whose `copy_data` returns
a truthy value: per-source events, then one upload per vault, then the
rest of the run. -/
theorem run_go_cons_truthy (vc : Nat) (tmps : Nat → List Char) (fmt : List Char)
    (b : SourceBeh) (rest : List SourceBeh) (i : Nat) (v : PyVal)
    (h : b.copyOutcome = Except.ok v) (htr : pyTruthy v = true) :
    run_go vc tmps fmt (b :: rest) i =
      ((run_go vc tmps fmt rest (i + 1)).1,
       Event.copyData i :: Event.archived i :: Event.removedTemp i ::
         ((List.range vc).map (fun j => Event.uploadAttempt i j) ++
           (run_go vc tmps fmt rest (i + 1)).2)) := by
  simp [run_go, archive_copy_ok i (tmps i) fmt b v h, htr, pyTruthyPath,
    mkArchivePath_not_empty]

/-- Unfolding of the `run` loop at a source whose `copy_data` returns
a falsy value: no archive, no uploads. -/
theorem run_go_cons_falsy (vc : Nat) (tmps : Nat → List Char) (fmt : List Char)
    (b : SourceBeh) (rest : List SourceBeh) (i : Nat) (v : PyVal)
    (h : b.copyOutcome = Except.ok v) (htr : pyTruthy v = false) :
    run_go vc tmps fmt (b :: rest) i =
      ((run_go vc tmps fmt rest (i + 1)).1,
       Event.copyData i :: Event.removedTemp i :: (run_go vc tmps fmt rest (i + 1)).2) := by
  simp [run_go, archive_copy_ok i (tmps i) fmt b v h, htr, pyTruthyPath]

/-- A `copy_data` event contributes its position to `copyIndices`. -/
theorem copyIndices_cons_copy (i : Nat) (tl : List Event) :
    copyIndices (Event.copyData i :: tl) = i :: copyIndices tl := rfl

/-- An archive event contributes nothing to `copyIndices`. -/
theorem copyIndices_cons_archived (i : Nat) (tl : List Event) :
    copyIndices (Event.archived i :: tl) = copyIndices tl := rfl

/-- A cleanup event contributes nothing to `copyIndices`. -/
theorem copyIndices_cons_removed (i : Nat) (tl : List Event) :
    copyIndices (Event.removedTemp i :: tl) = copyIndices tl := rfl

/-- `copyIndices` distributes over appending traces. -/
theorem copyIndices_append (l1 l2 : List Event) :
    copyIndices (l1 ++ l2) = copyIndices l1 ++ copyIndices l2 := by
  simp [copyIndices]

/-- A block of upload events contributes no `copy_data` positions. -/
theorem copyIndices_map_upload (l : List Nat) (i : Nat) :
    copyIndices (l.map (fun j => Event.uploadAttempt i j)) = [] := by
  induction l with
  | nil => rfl
  | cons a tl ih =>
    simp only [copyIndices, List.map_cons, List.filterMap_cons] at ih ⊢
    exact ih

/-- `uploadCount` ignores a `copy_data` event. -/
theorem uploadCount_cons_copy (i : Nat) (tl : List Event) :
    uploadCount (Event.copyData i :: tl) = uploadCount tl := by
  simp [uploadCount, List.countP_cons, isUpload]

/-- `uploadCount` ignores an archive event. -/
theorem uploadCount_cons_archived (i : Nat) (tl : List Event) :
    uploadCount (Event.archived i :: tl) = uploadCount tl := by
  simp [uploadCount, List.countP_cons, isUpload]

/-- `uploadCount` ignores a cleanup event. -/
theorem uploadCount_cons_removed (i : Nat) (tl : List Event) :
    uploadCount (Event.removedTemp i :: tl) = uploadCount tl := by
  simp [uploadCount, List.countP_cons, isUpload]

/-- `uploadCount` distributes over appending traces. -/
theorem uploadCount_append (l1 l2 : List Event) :
    uploadCount (l1 ++ l2) = uploadCount l1 + uploadCount l2 := by
  simp [uploadCount]

/-- Counting the uploads in a block of upload events for one source. -/
theorem uploadCount_map_upload (l : List Nat) (i : Nat) :
    uploadCount (l.map (fun j => Event.uploadAttempt i j)) = l.length := by
  induction l with
  | nil => rfl
  | cons a tl ih =>
    simp only [uploadCount] at ih ⊢
    simp [List.countP_cons, isUpload, ih]

/-- `uploadCountFor` ignores a `copy_data` event. -/
theorem uploadCountFor_cons_copy (t i : Nat) (tl : List Event) :
    uploadCountFor t (Event.copyData i :: tl) = uploadCountFor t tl := by
  simp [uploadCountFor, List.countP_cons, isUploadFor]

/-- `uploadCountFor` ignores an archive event. -/
theorem uploadCountFor_cons_archived (t i : Nat) (tl : List Event) :
    uploadCountFor t (Event.archived i :: tl) = uploadCountFor t tl := by
  simp [uploadCountFor, List.countP_cons, isUploadFor]

/-- `uploadCountFor` ignores a cleanup event. -/
theorem uploadCountFor_cons_removed (t i : Nat) (tl : List Event) :
    uploadCountFor t (Event.removedTemp i :: tl) = uploadCountFor t tl := by
  simp [uploadCountFor, List.countP_cons, isUploadFor]

/-- `uploadCountFor` distributes over appending traces. -/
theorem uploadCountFor_append (t : Nat) (l1 l2 : List Event) :
    uploadCountFor t (l1 ++ l2) = uploadCountFor t l1 + uploadCountFor t l2 := by
  simp [uploadCountFor]

/-- A block of upload events for source `i` counts `l.length` upload
attempts for source `i` itself. -/
theorem uploadCountFor_map_upload_self (l : List Nat) (i : Nat) :
    uploadCountFor i (l.map (fun j => Event.uploadAttempt i j)) = l.length := by
  induction l with
  | nil => rfl
  | cons a tl ih =>
    simp only [uploadCountFor] at ih ⊢
    simp [List.countP_cons, isUploadFor, ih]

/-- A block of upload events for source `i` counts no upload attempts
for a different source `t`. -/
theorem uploadCountFor_map_upload_ne (l : List Nat) (i t : Nat) (hne : i ≠ t) :
    uploadCountFor t (l.map (fun m => Event.uploadAttempt i m)) = 0 := by
  induction l with
  | nil => rfl
  | cons a tl ih =>
    simp only [uploadCountFor] at ih ⊢
    simp [List.countP_cons, isUploadFor, ih, hne]

/-- `archivedCountFor` ignores a `copy_data` event. -/
theorem archivedCountFor_cons_copy (t i : Nat) (tl : List Event) :
    archivedCountFor t (Event.copyData i :: tl) = archivedCountFor t tl := by
  simp [archivedCountFor, List.countP_cons, isArchivedFor]

/-- `archivedCountFor` ignores a cleanup event. -/
theorem archivedCountFor_cons_removed (t i : Nat) (tl : List Event) :
    archivedCountFor t (Event.removedTemp i :: tl) = archivedCountFor t tl := by
  simp [archivedCountFor, List.countP_cons, isArchivedFor]

/-- `archivedCountFor t` ignores an archive event of a different
source. -/
theorem archivedCountFor_cons_archived_ne (t i : Nat) (tl : List Event) (hne : i ≠ t) :
    archivedCountFor t (Event.archived i :: tl) = archivedCountFor t tl := by
  simp [archivedCountFor, List.countP_cons, isArchivedFor, hne]

/-- `archivedCountFor` distributes over appending traces. -/
theorem archivedCountFor_append (t : Nat) (l1 l2 : List Event) :
    archivedCountFor t (l1 ++ l2) = archivedCountFor t l1 + archivedCountFor t l2 := by
  simp [archivedCountFor]

/-- A block of upload events contains no archive-creation events. -/
theorem archivedCountFor_map_upload (l : List Nat) (i t : Nat) :
    archivedCountFor t (l.map (fun j => Event.uploadAttempt i j)) = 0 := by
  induction l with
  | nil => rfl
  | cons a tl ih =>
    simp only [archivedCountFor] at ih ⊢
    simp [List.countP_cons, isArchivedFor, ih]

/-- Every event emitted by the run loop started at position `i`
belongs to a source at position at least `i`. -/
theorem run_go_event_idx_ge (vc : Nat) (tmps : Nat → List Char) (fmt : List Char) :
    ∀ (behs : List SourceBeh) (i : Nat) (e : Event),
      e ∈ (run_go vc tmps fmt behs i).2 → i ≤ eventIdx e := by
  intro behs
  induction behs with
  | nil =>
    intro i e he
    simp [run_go] at he
  | cons b rest ih =>
    intro i e he
    rcases hb : b.copyOutcome with e0 | v
    · rw [run_go_cons_error vc tmps fmt b rest i e0 hb] at he
      rw [List.mem_singleton] at he
      subst he
      exact Nat.le_refl i
    · rcases htr : pyTruthy v
      · rw [run_go_cons_falsy vc tmps fmt b rest i v hb htr] at he
        simp only [List.mem_cons] at he
        rcases he with rfl | rfl | hrec
        · exact Nat.le_refl i
        · exact Nat.le_refl i
        · exact Nat.le_of_succ_le (ih (i + 1) e hrec)
      · rw [run_go_cons_truthy vc tmps fmt b rest i v hb htr] at he
        simp only [List.mem_cons, List.mem_append, List.mem_map] at he
        rcases he with rfl | rfl | rfl | ⟨j, _, rfl⟩ | hrec
        · exact Nat.le_refl i
        · exact Nat.le_refl i
        · exact Nat.le_refl i
        · exact Nat.le_refl i
        · exact Nat.le_of_succ_le (ih (i + 1) e hrec)

/-- No upload attempt for a source at a position below the loop's
starting position appears in the loop's trace. -/
theorem uploadCountFor_run_go_eq_zero_of_lt (vc : Nat) (tmps : Nat → List Char)
    (fmt : List Char) (behs : List SourceBeh) (i t : Nat) (ht : t < i) :
    uploadCountFor t (run_go vc tmps fmt behs i).2 = 0 := by
  rw [uploadCountFor, List.countP_eq_zero]
  intro e he hp
  have hidx := run_go_event_idx_ge vc tmps fmt behs i e he
  cases e with
  | copyData a => simp [isUploadFor] at hp
  | archived a => simp [isUploadFor] at hp
  | removedTemp a => simp [isUploadFor] at hp
  | uploadAttempt a m =>
    simp [isUploadFor] at hp
    simp [eventIdx] at hidx
    omega

/-- No archive creation for a source at a position below the loop's
starting position appears in the loop's trace. -/
theorem archivedCountFor_run_go_eq_zero_of_lt (vc : Nat) (tmps : Nat → List Char)
    (fmt : List Char) (behs : List SourceBeh) (i t : Nat) (ht : t < i) :
    archivedCountFor t (run_go vc tmps fmt behs i).2 = 0 := by
  rw [archivedCountFor, List.countP_eq_zero]
  intro e he hp
  have hidx := run_go_event_idx_ge vc tmps fmt behs i e he
  cases e with
  | copyData a => simp [isArchivedFor] at hp
  | archived a =>
    simp [isArchivedFor] at hp
    simp [eventIdx] at hidx
    omega
  | removedTemp a => simp [isArchivedFor] at hp
  | uploadAttempt a m => simp [isArchivedFor] at hp

/-- Main induction for C1: the loop started at `i` performs one
`copy_data` per remaining source, at positions `i, i+1, ...` in order,
and `vc` uploads per truthy source. -/
theorem run_go_copy_upload_counts (vc : Nat) (tmps : Nat → List Char) (fmt : List Char) :
    ∀ (behs : List SourceBeh) (i : Nat),
      (∀ b ∈ behs, ∃ v, b.copyOutcome = Except.ok v) →
      copyIndices (run_go vc tmps fmt behs i).2 = List.range' i behs.length ∧
      uploadCount (run_go vc tmps fmt behs i).2 = vc * behs.countP truthyOutcome := by
  intro behs
  induction behs with
  | nil => intro i _; exact ⟨rfl, rfl⟩
  | cons b rest ih =>
    intro i h
    obtain ⟨v, hv⟩ := h b (List.mem_cons_self b rest)
    obtain ⟨ih1, ih2⟩ := ih (i + 1) (fun b2 hb2 => h b2 (List.mem_cons_of_mem b hb2))
    rcases htr : pyTruthy v
    · have htb : truthyOutcome b = false := by simp [truthyOutcome, hv, htr]
      rw [run_go_cons_falsy vc tmps fmt b rest i v hv htr]
      constructor
      · rw [copyIndices_cons_copy, copyIndices_cons_removed, ih1, List.length_cons,
          List.range'_succ]
      · rw [uploadCount_cons_copy, uploadCount_cons_removed, ih2, List.countP_cons, htb,
          if_neg Bool.false_ne_true, Nat.add_zero]
    · have htb : truthyOutcome b = true := by simp [truthyOutcome, hv, htr]
      rw [run_go_cons_truthy vc tmps fmt b rest i v hv htr]
      constructor
      · rw [copyIndices_cons_copy, copyIndices_cons_archived, copyIndices_cons_removed,
          copyIndices_append, copyIndices_map_upload, ih1, List.length_cons,
          List.range'_succ, List.nil_append]
      · rw [uploadCount_cons_copy, uploadCount_cons_archived, uploadCount_cons_removed,
          uploadCount_append, uploadCount_map_upload, ih2, List.length_range,
          List.countP_cons, htb, if_pos rfl]
        ring

/-- Main induction for the per-source upload count of C1: under an
all-normal run, the source at offset `k` from the loop start receives
`vc` upload attempts when its extraction was truthy and none
otherwise. -/
theorem run_go_uploadCountFor (vc : Nat) (tmps : Nat → List Char) (fmt : List Char) :
    ∀ (behs : List SourceBeh) (i k : Nat) (b : SourceBeh),
      (∀ b2 ∈ behs, ∃ v, b2.copyOutcome = Except.ok v) →
      behs[k]? = some b →
      uploadCountFor (i + k) (run_go vc tmps fmt behs i).2 =
        if truthyOutcome b then vc else 0 := by
  intro behs
  induction behs with
  | nil => intro i k b _ hk; simp at hk
  | cons hd rest ih =>
    intro i k b h hk
    obtain ⟨v, hv⟩ := h hd (List.mem_cons_self hd rest)
    cases k with
    | zero =>
      simp only [List.getElem?_cons_zero, Option.some.injEq] at hk
      subst hk
      rw [Nat.add_zero]
      have hrec := uploadCountFor_run_go_eq_zero_of_lt vc tmps fmt rest (i + 1) i
        (Nat.lt_succ_self i)
      rcases htr : pyTruthy v
      · have htb : truthyOutcome hd = false := by simp [truthyOutcome, hv, htr]
        rw [run_go_cons_falsy vc tmps fmt hd rest i v hv htr, uploadCountFor_cons_copy,
          uploadCountFor_cons_removed, hrec, htb, if_neg Bool.false_ne_true]
      · have htb : truthyOutcome hd = true := by simp [truthyOutcome, hv, htr]
        rw [run_go_cons_truthy vc tmps fmt hd rest i v hv htr, uploadCountFor_cons_copy,
          uploadCountFor_cons_archived, uploadCountFor_cons_removed, uploadCountFor_append,
          uploadCountFor_map_upload_self, hrec, List.length_range, htb, if_pos rfl,
          Nat.add_zero]
    | succ k2 =>
      simp only [List.getElem?_cons_succ] at hk
      have hrec := ih (i + 1) k2 b (fun b2 hb2 => h b2 (List.mem_cons_of_mem hd hb2)) hk
      have harr : i + (k2 + 1) = i + 1 + k2 := by omega
      have hne : i ≠ i + 1 + k2 := by omega
      rw [harr]
      rcases htr : pyTruthy v
      · rw [run_go_cons_falsy vc tmps fmt hd rest i v hv htr, uploadCountFor_cons_copy,
          uploadCountFor_cons_removed, hrec]
      · rw [run_go_cons_truthy vc tmps fmt hd rest i v hv htr, uploadCountFor_cons_copy,
          uploadCountFor_cons_archived, uploadCountFor_cons_removed, uploadCountFor_append,
          uploadCountFor_map_upload_ne _ _ _ hne, hrec, Nat.zero_add]

/-- Main induction for C2: a source whose extraction returned a falsy
value receives no archive creation and no upload attempt, whatever
happens to the other sources. -/
theorem run_go_empty_source (vc : Nat) (tmps : Nat → List Char) (fmt : List Char) :
    ∀ (behs : List SourceBeh) (i k : Nat) (b : SourceBeh) (v : PyVal),
      behs[k]? = some b → b.copyOutcome = Except.ok v → pyTruthy v = false →
      archivedCountFor (i + k) (run_go vc tmps fmt behs i).2 = 0 ∧
      uploadCountFor (i + k) (run_go vc tmps fmt behs i).2 = 0 := by
  intro behs
  induction behs with
  | nil => intro i k b v hk; simp at hk
  | cons hd rest ih =>
    intro i k b v hk hv hf
    cases k with
    | zero =>
      simp only [List.getElem?_cons_zero, Option.some.injEq] at hk
      subst hk
      rw [Nat.add_zero, run_go_cons_falsy vc tmps fmt hd rest i v hv hf]
      have hrec1 := archivedCountFor_run_go_eq_zero_of_lt vc tmps fmt rest (i + 1) i
        (Nat.lt_succ_self i)
      have hrec2 := uploadCountFor_run_go_eq_zero_of_lt vc tmps fmt rest (i + 1) i
        (Nat.lt_succ_self i)
      constructor
      · rw [archivedCountFor_cons_copy, archivedCountFor_cons_removed, hrec1]
      · rw [uploadCountFor_cons_copy, uploadCountFor_cons_removed, hrec2]
    | succ k2 =>
      simp only [List.getElem?_cons_succ] at hk
      have harr : i + (k2 + 1) = i + 1 + k2 := by omega
      have hne : i ≠ i + 1 + k2 := by omega
      obtain ⟨hrec1, hrec2⟩ := ih (i + 1) k2 b v hk hv hf
      rcases hhd : hd.copyOutcome with e0 | v0
      · rw [run_go_cons_error vc tmps fmt hd rest i e0 hhd]
        exact ⟨rfl, rfl⟩
      · rw [harr]
        rcases htr : pyTruthy v0
        · rw [run_go_cons_falsy vc tmps fmt hd rest i v0 hhd htr]
          constructor
          · rw [archivedCountFor_cons_copy, archivedCountFor_cons_removed, hrec1]
          · rw [uploadCountFor_cons_copy, uploadCountFor_cons_removed, hrec2]
        · rw [run_go_cons_truthy vc tmps fmt hd rest i v0 hhd htr]
          constructor
          · rw [archivedCountFor_cons_copy, archivedCountFor_cons_archived_ne _ _ _ hne,
              archivedCountFor_cons_removed, archivedCountFor_append,
              archivedCountFor_map_upload, hrec1]
          · rw [uploadCountFor_cons_copy, uploadCountFor_cons_archived,
              uploadCountFor_cons_removed, uploadCountFor_append,
              uploadCountFor_map_upload_ne _ _ _ hne, hrec2]

/-- C1: a run over `N` sources with `vc` vaults calls `copy_data`
exactly once per source, in declaration order (the `copy_data` events
carry positions `0, ..., N-1` in order); each source whose extraction
reported non-empty gets exactly `vc` upload attempts and every other
source gets none; and the total number of upload attempts is `vc`
times the number of non-empty sources.  The hypothesis restricts the
statement to runs where every `copy_data` call returns normally (an
uncaught exception aborts the run). -/
theorem run_extraction_and_upload_counts (vc : Nat) (tmps : Nat → List Char)
    (fmt : List Char) (behs : List SourceBeh)
    (hnorm : ∀ b ∈ behs, ∃ v, b.copyOutcome = Except.ok v) :
    copyIndices (run vc tmps fmt behs).2 = List.range behs.length ∧
    (∀ k b, behs[k]? = some b →
      uploadCountFor k (run vc tmps fmt behs).2 = if truthyOutcome b then vc else 0) ∧
    uploadCount (run vc tmps fmt behs).2 = vc * behs.countP truthyOutcome := by
  obtain ⟨h1, h2⟩ := run_go_copy_upload_counts vc tmps fmt behs 0 hnorm
  refine ⟨?_, ?_, h2⟩
  · rw [run, h1, List.range_eq_range']
  · intro k b hk
    have h3 := run_go_uploadCountFor vc tmps fmt behs 0 k b hnorm hk
    rw [Nat.zero_add] at h3
    exact h3

/-- Witness for `run_extraction_and_upload_counts` on a two-source,
two-vault run where the first source is non-empty and the second is
empty. -/
theorem run_extraction_and_upload_counts_witness :
    copyIndices (run 2 (fun _ => "t".toList) "zip".toList demoBehs).2 =
      List.range demoBehs.length ∧
    (∀ k b, demoBehs[k]? = some b →
      uploadCountFor k (run 2 (fun _ => "t".toList) "zip".toList demoBehs).2 =
        if truthyOutcome b then 2 else 0) ∧
    uploadCount (run 2 (fun _ => "t".toList) "zip".toList demoBehs).2 =
      2 * demoBehs.countP truthyOutcome :=
  run_extraction_and_upload_counts 2 (fun _ => "t".toList) "zip".toList demoBehs (by
    intro b hb
    simp only [demoBehs, List.mem_cons, List.not_mem_nil, or_false] at hb
    rcases hb with rfl | rfl
    · exact ⟨PyVal.boolVal true, rfl⟩
    · exact ⟨PyVal.noneVal, rfl⟩)

/-- C2: a source whose extraction returns a falsy value produces no
archive (`archive` returns `None` and the run's trace holds no
archive-creation event for that source) and receives zero upload
attempts in the run. -/
theorem empty_extraction_no_archive_no_upload (vc : Nat) (tmps : Nat → List Char)
    (fmt : List Char) (behs : List SourceBeh) (k : Nat) (b : SourceBeh) (v : PyVal)
    (hk : behs[k]? = some b) (hv : b.copyOutcome = Except.ok v)
    (hf : pyTruthy v = false) :
    (archive k (tmps k) fmt b).1 = Except.ok Option.none ∧
    archivedCountFor k (run vc tmps fmt behs).2 = 0 ∧
    uploadCountFor k (run vc tmps fmt behs).2 = 0 := by
  obtain ⟨h1, h2⟩ := run_go_empty_source vc tmps fmt behs 0 k b v hk hv hf
  rw [Nat.zero_add] at h1 h2
  refine ⟨?_, h1, h2⟩
  rw [archive_copy_ok k (tmps k) fmt b v hv, hf]
  rfl

/-- Witness for `empty_extraction_no_archive_no_upload` at the empty
second source of the two-source demo run. -/
theorem empty_extraction_no_archive_no_upload_witness :
    (archive 1 "t".toList "zip".toList (SourceBeh.mk (Except.ok PyVal.noneVal))).1 =
      Except.ok Option.none ∧
    archivedCountFor 1 (run 2 (fun _ => "t".toList) "zip".toList demoBehs).2 = 0 ∧
    uploadCountFor 1 (run 2 (fun _ => "t".toList) "zip".toList demoBehs).2 = 0 :=
  empty_extraction_no_archive_no_upload 2 (fun _ => "t".toList) "zip".toList demoBehs 1
    (SourceBeh.mk (Except.ok PyVal.noneVal)) PyVal.noneVal rfl rfl rfl

/-- Witness for `config_ioerror_reported` at the default path. -/
theorem config_ioerror_reported_witness :
    create_with_config "backup.yml".toList (Except.error ()) =
      (Option.none, some [("path".toList, ErrVal.str "backup.yml".toList),
                          ([], ErrVal.str "No config file found".toList)]) :=
  config_ioerror_reported "backup.yml".toList

end Coverme
